import Mathlib

/-!
Shallow embedding of `src/oj_api_tool.py`, a thin client that authenticates
against an OnlineJudge REST API, fetches paginated contest rankings and
renders them as scored CSV tables (ACM or OI rules).

Modelling conventions:
* Python dicts whose keys are int-convertible strings (the `submission_info`
  maps, keyed by question id) become association lists over `Nat`; a dict has
  distinct keys, which appears as a `Nodup` hypothesis where it matters.
* Python numbers in scoring become `ℚ` (the scoring rules are exact in `ℚ`).
* The f-string format `.2f` is modelled by `fmt2`, rounding to the nearest
  hundredth and printing a sign, the integer part, a point and two digits.
* Side effects become explicit values: the HTTP server is a function from
  request offset to response, the CSV written to stdout is the returned list
  of rows (header row first), and the cookie file is an `Option` value
  threaded in and out.
-/

/-- Maximum records per API call: `PAGE_LIMIT = 250` in the source. -/
def PAGE_LIMIT : Nat := 250

/-- A cookie of the session's cookie jar: name, value and the cookie's domain. -/
structure Cookie where
  name : String
  value : String
  domain : String
deriving DecidableEq, Repr

/-- Embeds `set_csrf_header` (src lines 69-78): filter the jar for cookies
named `csrftoken`; raise (`.error`) if there are none; otherwise pick the
first whose domain equals the configured site's hostname, falling back to the
last csrftoken cookie, and set the `X-CSRFToken` header to its value (the
returned `.ok` string). -/
def set_csrf_header (siteHostname : String) (cookies : List Cookie) :
    Except String String :=
  let csrfCookies := cookies.filter (fun c => c.name == "csrftoken")
  if h : csrfCookies = [] then .error "No csrftoken cookie found in session"
  else
    match csrfCookies.find? (fun c => c.domain == siteHostname) with
    | some c => .ok c.value
    | none => .ok (csrfCookies.getLast h).value

/-- Embeds `load_cookies` (src lines 34-48). The jar type `J` is abstract;
`parse` models `json.load` followed by `cookiejar_from_dict`, with `none` for
any parse or I/O exception; `file` is the cookie file's content when the file
exists. The function is total: every failure path returns `(session, false)`
instead of propagating an exception. -/
def load_cookies {J : Type} (parse : String → Option J) (file : Option String)
    (session : J) : J × Bool :=
  match file with
  | none => (session, false)
  | some content =>
      match parse content with
      | none => (session, false)
      | some jar => (jar, true)

/-- A JSON value as far as the login envelope inspects it: `null` models both
an explicit JSON null and an absent field (Python `dict.get` returns `None`
for both). -/
inductive JVal where
  | null
  | str (s : String)
  | num (n : Int)
  | bool (b : Bool)
deriving DecidableEq, Repr

/-- The decoded JSON body of the login response: its `error` and `data` fields. -/
structure LoginResp where
  error : JVal
  data : JVal
deriving DecidableEq, Repr

/-- Embeds `do_login` (src lines 95-109) after a 2xx response: success is
`error is None and data == 'Succeeded'`; on success `save_cookies` overwrites
the cookie file with the session's cookies, otherwise the file is untouched.
Returns the success flag and the resulting cookie-file state. -/
def do_login (sessionCookies : List Cookie) (resp : LoginResp)
    (cookieFile : Option (List Cookie)) : Bool × Option (List Cookie) :=
  let success := resp.error == JVal.null && resp.data == JVal.str "Succeeded"
  if success then (true, some sessionCookies) else (false, cookieFile)

/-- The `data` envelope of a contest-rank response: an optional `total` field
and a `results` page. The entry type is abstract: `fetch_all_ranks` never
inspects entries. -/
structure RankResp (α : Type) where
  total : Option Nat
  results : List α

/-- Python `range(start, stop, step)` for `step > 0`: the naturals
`start, start + step, …` strictly below `stop`. -/
def pyRange (start stop step : Nat) : List Nat :=
  List.range' start ((stop - start + step - 1) / step) step

/-- Embeds `fetch_all_ranks` (src lines 134-146): request offset 0 with limit
`PAGE_LIMIT`, read `total` (defaulting to the first page's length), then
request every offset in `range(PAGE_LIMIT, total, PAGE_LIMIT)` and append the
pages in request order. `server` maps a request offset to the decoded `data`
envelope of the response. -/
def fetch_all_ranks {α : Type} (server : Nat → RankResp α) : List α :=
  let data := server 0
  let total := data.total.getD data.results.length
  data.results ++ (pyRange PAGE_LIMIT total PAGE_LIMIT).flatMap
    (fun off => (server off).results)

/-- The offsets of the requests `fetch_all_ranks` issues, in order: the first
request at offset 0, then `range(PAGE_LIMIT, total, PAGE_LIMIT)`. -/
def fetchOffsets {α : Type} (server : Nat → RankResp α) : List Nat :=
  let data := server 0
  let total := data.total.getD data.results.length
  0 :: pyRange PAGE_LIMIT total PAGE_LIMIT

/-- One question's record inside an ACM `submission_info`: `is_ac` and an
`error_number` that may be absent from the JSON object. -/
structure AcmQInfo where
  is_ac : Bool
  error_number : Option Int
deriving DecidableEq, Repr

/-- A rank entry as `results_to_csv_acm` reads it: `user.username` and the
`submission_info` dict from question id to its record. -/
structure AcmEntry where
  username : String
  submission_info : List (Nat × AcmQInfo)
deriving DecidableEq, Repr

/-- A rank entry as `results_to_csv_oi` reads it: `user.username`, an optional
`total_score` field, and the `submission_info` dict from question id to the
raw numeric score. -/
structure OiEntry where
  username : String
  total_score : Option Int
  submission_info : List (Nat × Int)
deriving DecidableEq, Repr

/-- Embeds `sorted({int(q) for e in results for q in e.get('submission_info', {})}, key=int)`
(src line 151): the set of integer keys over all entries, sorted ascending. -/
def acmQids (results : List AcmEntry) : List Nat :=
  ((results.flatMap fun e => e.submission_info.map Prod.fst).toFinset).sort (· ≤ ·)

/-- Embeds the identical qid derivation of `results_to_csv_oi` (src line 176). -/
def oiQids (results : List OiEntry) : List Nat :=
  ((results.flatMap fun e => e.submission_info.map Prod.fst).toFinset).sort (· ≤ ·)

/-- Dict lookup `info.get(str(qid))` on an ACM `submission_info`: `none` when
the question id is absent (the source's default `{}`). -/
def lookupQ (info : List (Nat × AcmQInfo)) (q : Nat) : Option AcmQInfo :=
  (info.find? fun p => p.1 == q).map Prod.snd

/-- Dict lookup `info.get(str(qid), 0)` on an OI `submission_info`. -/
def lookupOi (info : List (Nat × Int)) (q : Nat) : Int :=
  ((info.find? fun p => p.1 == q).map Prod.snd).getD 0

/-- Embeds `full = 100 / len(qids) if qids else 0` (src line 152). -/
def acmFull (qids : List Nat) : ℚ :=
  if qids = [] then 0 else 100 / (qids.length : ℚ)

/-- Embeds the per-question ACM score (src lines 162-167): with
`qi = info.get(str(qid), {})`, if `qi.get('is_ac')` then
`atts = qi.get('error_number', 0) + 1` and the score is `full` for `atts == 1`,
`full / 2` for `atts == 2`, else 0; otherwise 0 (also when the question id is
absent, since `{}` has no truthy `is_ac`). -/
def acmScore (full : ℚ) (info : List (Nat × AcmQInfo)) (q : Nat) : ℚ :=
  match lookupQ info q with
  | some qi =>
      if qi.is_ac then
        let atts : Int := qi.error_number.getD 0 + 1
        if atts = 1 then full else if atts = 2 then full / 2 else 0
      else 0
  | none => 0

/-- The decimal digit character for `n % 10`. -/
def digitChar (n : Nat) : Char := Char.ofNat (48 + n % 10)

/-- Rounding to the nearest integer with halves up, `⌊x + 1/2⌋`, computed on
the numerator and denominator so that the kernel can evaluate it. This models
the rounding of Python's float formatting (which is to-nearest on the binary
float; the model is exact in `ℚ` and differs only on exact ties). -/
def roundQ (x : ℚ) : Int := Int.fdiv (2 * x.num + (x.den : Int)) (2 * (x.den : Int))

/-- Models the f-string format `f"{sc:.2f}"`: round `100 * sc` to an integer
count of hundredths and print sign, integer part, a point and two digits. -/
def fmt2 (x : ℚ) : String :=
  let k : Int := roundQ (100 * x)
  let sign := if k < 0 then "-" else ""
  let a := k.natAbs
  sign ++ toString (a / 100) ++ "." ++ String.mk [digitChar (a / 10 % 10), digitChar (a % 10)]

/-- One CSV data row of `results_to_csv_acm` (src lines 156-171): the
username, each question's score formatted with `.2f`, then the accumulated
total formatted with `.2f`. -/
def acmRow (full : ℚ) (qids : List Nat) (e : AcmEntry) : List String :=
  e.username :: (qids.map fun q => fmt2 (acmScore full e.submission_info q))
    ++ [fmt2 ((qids.map fun q => acmScore full e.submission_info q).sum)]

/-- Embeds `results_to_csv_acm` (src lines 149-171), returning the rows
written to stdout: the header row, then one row per entry in order. -/
def results_to_csv_acm (results : List AcmEntry) : List (List String) :=
  let qids := acmQids results
  let full := acmFull qids
  ("username" :: ((List.range qids.length).zip qids).map (fun p => s!"Q{p.1 + 1}({p.2})")
      ++ ["total"])
    :: results.map (acmRow full qids)

/-- One CSV data row of `results_to_csv_oi` (src lines 180-188): the username,
each question's raw score `info.get(str(qid), 0)` printed as-is, then
`e.get('total_score', sum(info.values()))`. -/
def oiRow (qids : List Nat) (e : OiEntry) : List String :=
  e.username :: (qids.map fun q => toString (lookupOi e.submission_info q))
    ++ [toString (e.total_score.getD (e.submission_info.map Prod.snd).sum)]

/-- Embeds `results_to_csv_oi` (src lines 174-188), returning the rows written
to stdout: the header row, then one row per entry in order. -/
def results_to_csv_oi (results : List OiEntry) : List (List String) :=
  let qids := oiQids results
  ("username" :: ((List.range qids.length).zip qids).map (fun p => s!"Q{p.1 + 1}({p.2})")
      ++ ["total_score"])
    :: results.map (oiRow qids)

/-- A string ends in a decimal point followed by exactly two digit characters. -/
def twoDecimalPlaces (s : String) : Prop :=
  ∃ pre d1 d2, s.data = pre ++ ['.', d1, d2] ∧ d1.isDigit = true ∧ d2.isDigit = true

/-- Concrete server for exercising pagination: reports `total = 600` and one
distinct entry per page. -/
def c4server : Nat → RankResp Nat := fun off =>
  if off == 0 then ⟨some 600, [10]⟩ else if off == 250 then ⟨none, [20]⟩ else ⟨none, [30]⟩

/-- Concrete server whose first page omits the `total` field. -/
def c7server : Nat → RankResp Nat := fun _ => ⟨none, [5]⟩

/-- A rank entry with an empty `submission_info`. -/
def c5entry : AcmEntry := ⟨"alice", []⟩

/-- A second rank entry with an empty `submission_info`, named `bob`. -/
def c5entryB : AcmEntry := ⟨"bob", []⟩

/-- Two entries where only `ann` attempted question 1. -/
def c5results : List AcmEntry := [⟨"ann", [(1, ⟨true, some 0⟩)]⟩, c5entryB]

/-- A `submission_info` with question 7 accepted on the first attempt. -/
def c2info : List (Nat × AcmQInfo) := [(7, ⟨true, some 0⟩)]

/-- A `submission_info` with question 3 accepted and `error_number` absent. -/
def c10info : List (Nat × AcmQInfo) := [(3, ⟨true, none⟩)]

/-- An OI entry carrying an explicit `total_score` that disagrees with the sum
of its per-question scores. -/
def c3entryA : OiEntry := ⟨"ann", some 77, [(3, 10), (1, 20)]⟩

/-- An OI entry without a `total_score` field. -/
def c3entryB : OiEntry := ⟨"bob", none, [(3, 25)]⟩

/-- Two csrftoken cookies from different domains. -/
def c6cookies : List Cookie :=
  [⟨"csrftoken", "tokA", "other.example.com"⟩, ⟨"csrftoken", "tokB", "judge.example.org"⟩]

/-- A parse function that always fails, modelling an unparseable cookie file. -/
def c8parse : String → Option Nat := fun _ => none

/-- A successful login response body. -/
def c9resp : LoginResp := ⟨JVal.null, JVal.str "Succeeded"⟩

/-- A failed login response body. -/
def c9respBad : LoginResp := ⟨JVal.str "Invalid username or password", JVal.null⟩

theorem digitChar_isDigit (m : Nat) : (digitChar m).isDigit = true := by
  unfold digitChar
  have h : m % 10 < 10 := Nat.mod_lt _ (by norm_num)
  revert h
  generalize m % 10 = r
  intro h
  interval_cases r <;> decide

theorem fmt2_twoDecimals (x : ℚ) : twoDecimalPlaces (fmt2 x) := by
  show twoDecimalPlaces
    ((if roundQ (100 * x) < 0 then "-" else "")
      ++ toString ((roundQ (100 * x)).natAbs / 100) ++ "."
      ++ String.mk [digitChar ((roundQ (100 * x)).natAbs / 10 % 10),
          digitChar ((roundQ (100 * x)).natAbs % 10)])
  refine ⟨((if roundQ (100 * x) < 0 then "-" else "")
      ++ toString ((roundQ (100 * x)).natAbs / 100)).data,
    digitChar ((roundQ (100 * x)).natAbs / 10 % 10),
    digitChar ((roundQ (100 * x)).natAbs % 10), ?_,
    digitChar_isDigit _, digitChar_isDigit _⟩
  simp [String.data_append]

theorem fmt2_zero : fmt2 0 = "0.00" := by
  have h : roundQ (100 * 0) = 0 := by
    unfold roundQ
    norm_num
    decide
  unfold fmt2
  rw [h]
  rfl

/-- One ACM rank entry, used to instantiate the column-set theorem. -/
def c1acm : List AcmEntry := [⟨"ann", [(2, ⟨true, some 0⟩)]⟩]

/-- One OI rank entry, used to instantiate the column-set theorem. -/
def c1oi : List OiEntry := [⟨"ann", none, [(4, 10)]⟩]

/-- C1: both scorers use as their question-id column set exactly the set of
integer keys appearing in any entry's `submission_info` across all entries,
sorted in ascending numeric order; `results_to_csv_acm` and `results_to_csv_oi`
build their header and data rows from that list. -/
theorem qid_columns_sorted_union (acmResults : List AcmEntry) (oiResults : List OiEntry) :
    (List.Sorted (· < ·) (acmQids acmResults)
      ∧ (∀ q : Nat, q ∈ acmQids acmResults
          ↔ ∃ e ∈ acmResults, ∃ p ∈ e.submission_info, p.1 = q)
      ∧ results_to_csv_acm acmResults
          = ("username" :: ((List.range (acmQids acmResults).length).zip (acmQids acmResults)).map
                (fun p => s!"Q{p.1 + 1}({p.2})") ++ ["total"])
            :: acmResults.map (acmRow (acmFull (acmQids acmResults)) (acmQids acmResults)))
    ∧ (List.Sorted (· < ·) (oiQids oiResults)
      ∧ (∀ q : Nat, q ∈ oiQids oiResults
          ↔ ∃ e ∈ oiResults, ∃ p ∈ e.submission_info, p.1 = q)
      ∧ results_to_csv_oi oiResults
          = ("username" :: ((List.range (oiQids oiResults).length).zip (oiQids oiResults)).map
                (fun p => s!"Q{p.1 + 1}({p.2})") ++ ["total_score"])
            :: oiResults.map (oiRow (oiQids oiResults))) := by
  refine ⟨⟨Finset.sort_sorted_lt _, ?_, rfl⟩, Finset.sort_sorted_lt _, ?_, rfl⟩
  · intro q
    simp [acmQids, Finset.mem_sort, List.mem_toFinset, List.mem_flatMap, List.mem_map]
  · intro q
    simp [oiQids, Finset.mem_sort, List.mem_toFinset, List.mem_flatMap, List.mem_map]

theorem qid_columns_sorted_union_witness : 2 ∈ acmQids c1acm ∧ 4 ∈ oiQids c1oi :=
  ⟨((qid_columns_sorted_union c1acm c1oi).1.2.1 2).mpr
      ⟨⟨"ann", [(2, ⟨true, some 0⟩)]⟩, by decide, (2, ⟨true, some 0⟩), by decide, rfl⟩,
    ((qid_columns_sorted_union c1acm c1oi).2.2.1 4).mpr
      ⟨⟨"ann", none, [(4, 10)]⟩, by decide, (4, 10), by decide, rfl⟩⟩

/-- C2: in ACM mode, `full` is 100 divided by the number of distinct questions
(0 when there are none); a question's score is `full` when its record has
`is_ac` true with `error_number` 0, `full / 2` when `is_ac` true with
`error_number` 1, and 0 otherwise (other error counts, unsolved records,
or the question absent from the entry); the data rows are one per entry, each
ending in the sum of the per-question scores, and every score cell is
formatted with exactly two decimal places. -/
theorem acm_scoring_rule (results : List AcmEntry) :
    acmFull (acmQids results)
        = (if acmQids results = [] then 0 else 100 / ((acmQids results).length : ℚ))
    ∧ (results_to_csv_acm results).tail
        = results.map (acmRow (acmFull (acmQids results)) (acmQids results))
    ∧ (∀ full : ℚ, ∀ info q qi, lookupQ info q = some qi →
        (qi.is_ac = true → qi.error_number = some 0 → acmScore full info q = full)
        ∧ (qi.is_ac = true → qi.error_number = some 1 → acmScore full info q = full / 2)
        ∧ (qi.is_ac = true → ∀ k : Int, qi.error_number = some k → k ≠ 0 → k ≠ 1 →
            acmScore full info q = 0)
        ∧ (qi.is_ac = false → acmScore full info q = 0))
    ∧ (∀ full : ℚ, ∀ info q, lookupQ info q = none → acmScore full info q = 0)
    ∧ (∀ full : ℚ, ∀ qids : List Nat, ∀ e : AcmEntry, acmRow full qids e
        = e.username :: (qids.map fun q => fmt2 (acmScore full e.submission_info q))
          ++ [fmt2 ((qids.map fun q => acmScore full e.submission_info q).sum)])
    ∧ (∀ full : ℚ, ∀ qids : List Nat, ∀ e : AcmEntry, ∀ s : String,
        s ∈ (acmRow full qids e).tail → twoDecimalPlaces s) := by
  refine ⟨rfl, rfl, ?_, ?_, fun _ _ _ => rfl, ?_⟩
  · intro full info q qi hl
    refine ⟨?_, ?_, ?_, ?_⟩
    · intro hac hen
      simp [acmScore, hl, hac, hen]
    · intro hac hen
      simp [acmScore, hl, hac, hen]
    · intro hac k hen hk0 hk1
      have h1 : ¬(k + 1 = 1) := by omega
      have h2 : ¬(k + 1 = 2) := by omega
      simp [acmScore, hl, hac, hen, h1, h2]
    · intro hac
      simp [acmScore, hl, hac]
  · intro full info q hl
    simp [acmScore, hl]
  · intro full qids e s hs
    have hmem : s ∈ (qids.map fun q => fmt2 (acmScore full e.submission_info q))
        ++ [fmt2 ((qids.map fun q => acmScore full e.submission_info q).sum)] := hs
    rcases List.mem_append.mp hmem with h | h
    · rcases List.mem_map.mp h with ⟨q, _, rfl⟩
      exact fmt2_twoDecimals _
    · rw [List.mem_singleton.mp h]
      exact fmt2_twoDecimals _

theorem acm_scoring_rule_witness :
    acmScore 50 c2info 7 = 50 ∧ acmScore 50 c2info 9 = 0 :=
  ⟨((acm_scoring_rule []).2.2.1 50 c2info 7 ⟨true, some 0⟩ rfl).1 rfl rfl,
    (acm_scoring_rule []).2.2.2.1 50 c2info 9 rfl⟩

/-- C10: in ACM mode, a record with `is_ac` true but no `error_number` field
is scored as a first-attempt solve: `error_number` defaults to 0, so the
question is awarded the full per-question score. -/
theorem acm_missing_error_number_full (full : ℚ) (info : List (Nat × AcmQInfo)) (q : Nat)
    (qi : AcmQInfo) (hl : lookupQ info q = some qi) (hac : qi.is_ac = true)
    (hen : qi.error_number = none) :
    qi.error_number.getD 0 = 0 ∧ acmScore full info q = full := by
  refine ⟨by simp [hen], ?_⟩
  simp [acmScore, hl, hac, hen]

theorem acm_missing_error_number_full_witness :
    (⟨true, none⟩ : AcmQInfo).error_number.getD 0 = 0 ∧ acmScore 50 c10info 3 = 50 :=
  acm_missing_error_number_full 50 c10info 3 ⟨true, none⟩ rfl rfl rfl

/-- C5 (counterexample): with a single entry whose `submission_info` is empty,
question 5 appears in no entry's `submission_info`, yet the ACM CSV has no
column for it at all: the derived column set is empty and the header row is
just `username,total`. -/
theorem unattempted_question_no_column_cex :
    c5entry.submission_info = [] ∧ (5 : Nat) ∉ acmQids [c5entry]
      ∧ (results_to_csv_acm [c5entry]).head? = some ["username", "total"] := by
  have h : acmQids [c5entry] = [] := by
    simp [acmQids, c5entry]
  refine ⟨rfl, ?_, ?_⟩
  · rw [h]
    simp
  · simp [results_to_csv_acm, h]

/-- C5 (amended): a question appearing in no entry's `submission_info` gets no
column; what holds entry-wise is that a question in the column set but absent
from a given entry's `submission_info` is scored 0, rendered as the cell
`0.00` in that entry's row. -/
theorem unattempted_question_amended (results : List AcmEntry) (q : Nat) (e : AcmEntry)
    (he : e ∈ results) (habs : ∀ p ∈ e.submission_info, p.1 ≠ q) :
    ((∀ e2 ∈ results, ∀ p ∈ e2.submission_info, p.1 ≠ q) → q ∉ acmQids results)
    ∧ (q ∈ acmQids results →
        fmt2 (acmScore (acmFull (acmQids results)) e.submission_info q) = "0.00"
        ∧ "0.00" ∈ acmRow (acmFull (acmQids results)) (acmQids results) e) := by
  have hfind : e.submission_info.find? (fun p => p.1 == q) = none :=
    List.find?_eq_none.mpr (fun p hp => by simpa using habs p hp)
  have hscore : acmScore (acmFull (acmQids results)) e.submission_info q = 0 := by
    simp [acmScore, lookupQ, hfind]
  constructor
  · intro hall hmem
    rw [acmQids, Finset.mem_sort, List.mem_toFinset, List.mem_flatMap] at hmem
    obtain ⟨e2, he2, hm⟩ := hmem
    obtain ⟨p, hp, hpq⟩ := List.mem_map.mp hm
    exact hall e2 he2 p hp hpq
  · intro hq
    refine ⟨by rw [hscore, fmt2_zero], ?_⟩
    have hcell : fmt2 (acmScore (acmFull (acmQids results)) e.submission_info q)
        ∈ (acmQids results).map
            (fun q2 => fmt2 (acmScore (acmFull (acmQids results)) e.submission_info q2)) :=
      List.mem_map.mpr ⟨q, hq, rfl⟩
    rw [hscore, fmt2_zero] at hcell
    exact List.mem_cons_of_mem _ (List.mem_append_left _ hcell)

theorem unattempted_question_amended_witness :
    fmt2 (acmScore (acmFull (acmQids c5results)) c5entryB.submission_info 1) = "0.00"
    ∧ "0.00" ∈ acmRow (acmFull (acmQids c5results)) (acmQids c5results) c5entryB := by
  have hq : (1 : Nat) ∈ acmQids c5results := by
    have h : acmQids c5results = [1] := by
      simp [acmQids, c5results, c5entryB, Finset.sort_singleton]
    rw [h]
    exact List.mem_singleton.mpr rfl
  exact (unattempted_question_amended c5results 1 c5entryB (by decide) (by decide)).2 hq

theorem lookupOi_eq_zero_of_not_mem (info : List (Nat × Int)) (q : Nat)
    (h : q ∉ info.map Prod.fst) : lookupOi info q = 0 := by
  have hfind : info.find? (fun p => p.1 == q) = none :=
    List.find?_eq_none.mpr (fun p hp => by
      simp only [beq_iff_eq]
      intro hpq
      exact h (List.mem_map.mpr ⟨p, hp, hpq⟩))
  simp [lookupOi, hfind]

theorem lookupOi_cons_self (k : Nat) (v : Int) (rest : List (Nat × Int)) :
    lookupOi ((k, v) :: rest) k = v := by
  simp [lookupOi, List.find?_cons_of_pos]

theorem lookupOi_cons_ne (k : Nat) (v : Int) (rest : List (Nat × Int)) (q : Nat)
    (h : q ≠ k) : lookupOi ((k, v) :: rest) q = lookupOi rest q := by
  have hne : (((k, v) : Nat × Int).1 == q) = false := by
    simp
    exact fun hh => h hh.symm
  simp [lookupOi, List.find?_cons_of_neg, hne]

theorem sum_toFinset_lookup (info : List (Nat × Int))
    (hnd : (info.map Prod.fst).Nodup) :
    ∑ q ∈ (info.map Prod.fst).toFinset, lookupOi info q
      = (info.map Prod.snd).sum := by
  induction info with
  | nil => simp
  | cons p rest ih =>
      obtain ⟨k, v⟩ := p
      simp only [List.map_cons] at hnd
      obtain ⟨hk, hnd2⟩ := List.nodup_cons.mp hnd
      have hkf : k ∉ (rest.map Prod.fst).toFinset := by
        simpa [List.mem_toFinset] using hk
      rw [List.map_cons, List.toFinset_cons, Finset.sum_insert hkf]
      have hcong : ∀ q ∈ (rest.map Prod.fst).toFinset,
          lookupOi ((k, v) :: rest) q = lookupOi rest q := by
        intro q hq
        have hqk : q ≠ k := by
          intro hqe
          rw [hqe] at hq
          exact hk (List.mem_toFinset.mp hq)
        exact lookupOi_cons_ne k v rest q hqk
      rw [Finset.sum_congr rfl hcong, ih hnd2, lookupOi_cons_self]
      simp

theorem sum_qids_lookup (results : List OiEntry) (e : OiEntry) (he : e ∈ results)
    (hnd : (e.submission_info.map Prod.fst).Nodup) :
    ((oiQids results).map fun q => lookupOi e.submission_info q).sum
      = (e.submission_info.map Prod.snd).sum := by
  have h1 : ((oiQids results).map fun q => lookupOi e.submission_info q).sum
      = ∑ q ∈ (results.flatMap fun x => x.submission_info.map Prod.fst).toFinset,
          lookupOi e.submission_info q := by
    have hperm : (oiQids results).Perm
        ((results.flatMap fun x => x.submission_info.map Prod.fst).toFinset).toList :=
      Finset.sort_perm_toList _ _
    calc ((oiQids results).map fun q => lookupOi e.submission_info q).sum
        = ((((results.flatMap fun x => x.submission_info.map Prod.fst).toFinset).toList).map
            fun q => lookupOi e.submission_info q).sum := (hperm.map _).sum_eq
      _ = ∑ q ∈ (results.flatMap fun x => x.submission_info.map Prod.fst).toFinset,
            lookupOi e.submission_info q := Finset.sum_to_list _ _
  have hsub : (e.submission_info.map Prod.fst).toFinset
      ⊆ (results.flatMap fun x => x.submission_info.map Prod.fst).toFinset := by
    intro q hq
    rw [List.mem_toFinset, List.mem_flatMap]
    exact ⟨e, he, List.mem_toFinset.mp hq⟩
  have h2 : ∑ q ∈ (results.flatMap fun x => x.submission_info.map Prod.fst).toFinset,
        lookupOi e.submission_info q
      = ∑ q ∈ (e.submission_info.map Prod.fst).toFinset, lookupOi e.submission_info q := by
    refine (Finset.sum_subset hsub ?_).symm
    intro q _ hqk
    exact lookupOi_eq_zero_of_not_mem _ _ (fun hm => hqk (List.mem_toFinset.mpr hm))
  rw [h1, h2, sum_toFinset_lookup _ hnd]

/-- C3: in OI mode, an entry's row total is the server-reported `total_score`
when the field is present, used verbatim regardless of the per-question
scores; otherwise it is the sum of the entry's per-question raw scores. -/
theorem oi_total_rule (results : List OiEntry) (e : OiEntry) (he : e ∈ results)
    (hnd : (e.submission_info.map Prod.fst).Nodup) :
    (results_to_csv_oi results).tail = results.map (oiRow (oiQids results))
    ∧ (∀ t : Int, e.total_score = some t →
        (oiRow (oiQids results) e).getLast? = some (toString t))
    ∧ (e.total_score = none →
        (oiRow (oiQids results) e).getLast?
          = some (toString
              (((oiQids results).map fun q => lookupOi e.submission_info q).sum))) := by
  have hlast : (oiRow (oiQids results) e).getLast?
      = some (toString (e.total_score.getD (e.submission_info.map Prod.snd).sum)) := by
    rw [oiRow, List.getLast?_concat]
  refine ⟨rfl, ?_, ?_⟩
  · intro t ht
    rw [hlast, ht]
    rfl
  · intro ht
    rw [hlast, ht, Option.getD_none, sum_qids_lookup results e he hnd]

theorem oi_total_rule_witness :
    (oiRow (oiQids [c3entryA]) c3entryA).getLast? = some "77"
    ∧ (oiRow (oiQids [c3entryB]) c3entryB).getLast? = some "25" := by
  constructor
  · have h := (oi_total_rule [c3entryA] c3entryA (by decide) (by decide)).2.1 77 rfl
    rw [h]
    rfl
  · have h := (oi_total_rule [c3entryB] c3entryB (by decide) (by decide)).2.2 rfl
    have hq : oiQids [c3entryB] = [3] := by
      simp [oiQids, c3entryB, Finset.sort_singleton]
    rw [hq] at h ⊢
    rw [h]
    rfl

/-- C4: `fetch_all_ranks` requests offset 0 first, then exactly the multiples
of the page size that are strictly below the response's `total`, in increasing
order, appending each page's results in request order; for `total = 600` this
is offsets 0, 250, 500 and the concatenation of the three pages. -/
theorem fetch_pagination {α : Type} (server : Nat → RankResp α) (total : Nat)
    (ht : (server 0).total = some total) :
    fetchOffsets server = 0 :: pyRange PAGE_LIMIT total PAGE_LIMIT
    ∧ (∀ o : Nat, o ∈ pyRange PAGE_LIMIT total PAGE_LIMIT
        ↔ ∃ k : Nat, 1 ≤ k ∧ o = PAGE_LIMIT * k ∧ o < total)
    ∧ fetch_all_ranks server
        = (fetchOffsets server).flatMap (fun off => (server off).results)
    ∧ (total = 600 → fetchOffsets server = [0, 250, 500]
        ∧ fetch_all_ranks server
          = (server 0).results ++ ((server 250).results ++ (server 500).results)) := by
  have hoff : fetchOffsets server = 0 :: pyRange PAGE_LIMIT total PAGE_LIMIT := by
    simp [fetchOffsets, ht]
  refine ⟨hoff, ?_, ?_, ?_⟩
  · intro o
    simp only [pyRange, List.mem_range', PAGE_LIMIT]
    constructor
    · rintro ⟨i, hi, rfl⟩
      exact ⟨i + 1, by omega, by ring, by omega⟩
    · rintro ⟨k, hk1, rfl, hlt⟩
      exact ⟨k - 1, by omega, by omega⟩
  · rw [hoff, List.flatMap_cons]
    simp [fetch_all_ranks, ht]
  · intro h600
    subst h600
    have hpy : pyRange PAGE_LIMIT 600 PAGE_LIMIT = [250, 500] := rfl
    refine ⟨by rw [hoff, hpy], ?_⟩
    rw [hpy] at hoff
    simp [fetch_all_ranks, ht, hpy]

theorem fetch_pagination_witness :
    fetchOffsets c4server = [0, 250, 500]
    ∧ fetch_all_ranks c4server = [10, 20, 30] := by
  obtain ⟨h1, h2⟩ := (fetch_pagination c4server 600 rfl).2.2.2 rfl
  refine ⟨h1, ?_⟩
  rw [h2]
  rfl

/-- C7: when the first page's response lacks a `total` field, `total` falls
back to the length of the first page's results; a page holds at most
`PAGE_LIMIT` entries, so the offset loop is empty and no request beyond the
first is issued, whatever the server would return at other offsets. -/
theorem fetch_total_fallback {α : Type} (server : Nat → RankResp α)
    (hnone : (server 0).total = none)
    (hlen : (server 0).results.length ≤ PAGE_LIMIT) :
    (server 0).total.getD (server 0).results.length = (server 0).results.length
    ∧ fetchOffsets server = [0]
    ∧ fetch_all_ranks server = (server 0).results := by
  have h0 : ((server 0).results.length - PAGE_LIMIT + PAGE_LIMIT - 1) / PAGE_LIMIT = 0 := by
    simp only [PAGE_LIMIT] at hlen ⊢
    omega
  have hpy : pyRange PAGE_LIMIT ((server 0).results.length) PAGE_LIMIT = [] := by
    rw [pyRange, h0]
    rfl
  refine ⟨by rw [hnone]; rfl, ?_, ?_⟩
  · simp [fetchOffsets, hnone, hpy]
  · simp [fetch_all_ranks, hnone, hpy]

theorem fetch_total_fallback_witness :
    fetchOffsets c7server = [0] ∧ fetch_all_ranks c7server = [5] := by
  obtain ⟨-, h2, h3⟩ := fetch_total_fallback c7server rfl (by decide)
  exact ⟨h2, h3⟩

/-- C6: `set_csrf_header` fails exactly when the session has no cookie named
`csrftoken`; otherwise it selects the first csrftoken cookie whose domain
equals the configured site's hostname — so a matching cookie is always
preferred — and, when none matches, falls back to the last csrftoken cookie;
the header receives the selected cookie's value. -/
theorem csrf_selection (siteHostname : String) (cookies : List Cookie) :
    ((∃ msg, set_csrf_header siteHostname cookies = .error msg)
        ↔ ∀ c ∈ cookies, c.name ≠ "csrftoken")
    ∧ (∀ c : Cookie,
        (cookies.filter (fun x => x.name == "csrftoken")).find?
            (fun x => x.domain == siteHostname) = some c →
        c.name = "csrftoken" ∧ c.domain = siteHostname ∧ c ∈ cookies
          ∧ set_csrf_header siteHostname cookies = .ok c.value)
    ∧ (∀ c0 cs, cookies.filter (fun x => x.name == "csrftoken") = c0 :: cs →
        (c0 :: cs).find? (fun x => x.domain == siteHostname) = none →
        set_csrf_header siteHostname cookies
          = .ok ((c0 :: cs).getLast (List.cons_ne_nil c0 cs)).value) := by
  refine ⟨⟨?_, ?_⟩, ?_, ?_⟩
  · rintro ⟨msg, hmsg⟩ c hc hname
    have hcf : c ∈ cookies.filter (fun x => x.name == "csrftoken") :=
      List.mem_filter.mpr ⟨hc, by simp [hname]⟩
    cases hfil : cookies.filter (fun x => x.name == "csrftoken") with
    | nil =>
        rw [hfil] at hcf
        exact absurd hcf (List.not_mem_nil c)
    | cons c0 cs =>
        rw [set_csrf_header] at hmsg
        simp only [hfil] at hmsg
        cases hfind : (c0 :: cs).find? (fun x => x.domain == siteHostname) with
        | none => simp [hfind] at hmsg
        | some c2 => simp [hfind] at hmsg
  · intro hnone
    have hfil : cookies.filter (fun x => x.name == "csrftoken") = [] := by
      rw [List.filter_eq_nil_iff]
      intro c hc
      simp [hnone c hc]
    refine ⟨"No csrftoken cookie found in session", ?_⟩
    rw [set_csrf_header]
    simp only [hfil]
    rfl
  · intro c hfind
    have hmemf : c ∈ cookies.filter (fun x => x.name == "csrftoken") := by
      cases hfil : cookies.filter (fun x => x.name == "csrftoken") with
      | nil => rw [hfil] at hfind; simp at hfind
      | cons c0 cs =>
          rw [hfil] at hfind
          exact List.mem_of_find?_eq_some hfind
    have hname : c.name = "csrftoken" := by
      have := (List.mem_filter.mp hmemf).2
      simpa using this
    have hdom : c.domain = siteHostname := by
      have := List.find?_some hfind
      simpa using this
    refine ⟨hname, hdom, (List.mem_filter.mp hmemf).1, ?_⟩
    cases hfil : cookies.filter (fun x => x.name == "csrftoken") with
    | nil => rw [hfil] at hmemf; exact absurd hmemf (List.not_mem_nil c)
    | cons c0 cs =>
        rw [set_csrf_header]
        simp only [hfil]
        rw [hfil] at hfind
        simp [hfind]
  · intro c0 cs hfil hfind
    rw [set_csrf_header]
    simp only [hfil]
    simp [hfind]

theorem csrf_selection_witness :
    set_csrf_header "judge.example.org" c6cookies = Except.ok "tokB" :=
  ((csrf_selection "judge.example.org" c6cookies).2.1
    ⟨"csrftoken", "tokB", "judge.example.org"⟩ (by decide)).2.2.2

/-- C8: `load_cookies` returns a boolean success flag; a missing file or a
failed parse produces `(session, false)` — the failure is a return value, not
an exception — and only a successful parse yields `true`, installing the
parsed jar. -/
theorem load_cookies_failure_is_false {J : Type} (parse : String → Option J)
    (file : Option String) (session : J) :
    ((load_cookies parse file session).2 = true
        ↔ ∃ content jar, file = some content ∧ parse content = some jar)
    ∧ (file = none → load_cookies parse file session = (session, false))
    ∧ (∀ content, file = some content → parse content = none →
        load_cookies parse file session = (session, false))
    ∧ (∀ content jar, file = some content → parse content = some jar →
        load_cookies parse file session = (jar, true)) := by
  refine ⟨?_, ?_, ?_, ?_⟩
  · cases file with
    | none => simp [load_cookies]
    | some content =>
        cases hp : parse content with
        | none => simp [load_cookies, hp]
        | some jar => simp [load_cookies, hp]
  · intro hf
    rw [hf]
    rfl
  · intro content hf hp
    rw [hf]
    show (match parse content with
      | none => (session, false)
      | some jar => (jar, true)) = (session, false)
    rw [hp]
  · intro content jar hf hp
    rw [hf]
    show (match parse content with
      | none => (session, false)
      | some jar => (jar, true)) = (jar, true)
    rw [hp]

theorem load_cookies_failure_is_false_witness :
    load_cookies c8parse (some "x") (0 : Nat) = (0, false) :=
  (load_cookies_failure_is_false c8parse (some "x") 0).2.2.1 "x" rfl rfl

/-- C9: `do_login` reports success exactly when the response's `error` field
is null and its `data` field equals the string `Succeeded`; the session's
cookies are written to the cookie file exactly on success, and the file is
left untouched on failure. -/
theorem do_login_success_iff (sessionCookies : List Cookie) (resp : LoginResp)
    (cookieFile : Option (List Cookie)) :
    ((do_login sessionCookies resp cookieFile).1 = true
        ↔ resp.error = JVal.null ∧ resp.data = JVal.str "Succeeded")
    ∧ ((do_login sessionCookies resp cookieFile).1 = true →
        (do_login sessionCookies resp cookieFile).2 = some sessionCookies)
    ∧ ((do_login sessionCookies resp cookieFile).1 = false →
        (do_login sessionCookies resp cookieFile).2 = cookieFile) := by
  have hd : do_login sessionCookies resp cookieFile
      = if (resp.error == JVal.null && resp.data == JVal.str "Succeeded")
        then (true, some sessionCookies) else (false, cookieFile) := rfl
  rw [hd]
  by_cases hs : (resp.error == JVal.null && resp.data == JVal.str "Succeeded") = true
  · rw [if_pos hs]
    simp only [Bool.and_eq_true, beq_iff_eq] at hs
    exact ⟨by simp [hs.1, hs.2], fun _ => rfl, by simp⟩
  · rw [if_neg hs]
    refine ⟨⟨fun h => absurd h (by simp), ?_⟩, by simp, fun _ => rfl⟩
    rintro ⟨h1, h2⟩
    exact absurd (by simp [h1, h2] :
      (resp.error == JVal.null && resp.data == JVal.str "Succeeded") = true) hs

theorem do_login_success_iff_witness :
    (do_login [] c9resp none).1 = true
    ∧ (do_login [] c9resp none).2 = some []
    ∧ (do_login [] c9respBad (some [])).1 = false
    ∧ (do_login [] c9respBad (some [])).2 = some [] := by
  have h1 := (do_login_success_iff [] c9resp none).1.mpr ⟨rfl, rfl⟩
  refine ⟨h1, (do_login_success_iff [] c9resp none).2.1 h1, ?_, ?_⟩
  · decide
  · exact (do_login_success_iff [] c9respBad (some [])).2.2 (by decide)
